import Mathlib

/-!
Verification of the KimchiLang compiler core (scanner/parser/type-checker/emitter
pipeline, JavaScript implementation) against its natural-language specification.

The development shallowly embeds the relevant parts of the source:

* the parser's token-level lookahead that disambiguates `|` between bitwise-OR
  and pattern-guard delimiters (`Parser.isPatternMatchStart`),
* the parser's immutability bookkeeping for `dec` bindings
  (`decVariables`, `checkDecImmutability`, `getRootIdentifier`, `getFullPath`),
* the parser's secret-taint check on `js` blocks (the `console.*` regex),
* the AST produced by the parser (`NodeType` variants) and the code
  generator (`CodeGenerator.visit*`) over it,
* the type checker's module-export collection (`moduleExports`) and the
  registry publication condition (`TypeChecker.check`).

All machine strings are Lean `String`s; fallible emission is `Except String`.
-/

/-! ### Tokens and the pattern-guard lookahead

The parser drops every NEWLINE token up front (`Parser` constructor filters with
`isSignificantNewline`, which always returns false), so the token stream the
lookahead walks can in practice contain no newline; the newline-skipping branch
of the source is kept faithfully anyway.  Only the token kinds that
`isPatternMatchStart` distinguishes are modelled separately; `other` covers
every remaining kind, which the source treats uniformly. -/

inductive Tok
  | bitor
  | fatArrow
  | newline
  | eofTok
  | other (kind : String)
  deriving DecidableEq, Repr

/-- The inner loop of `Parser.isPatternMatchStart`: after the closing `|` has
been found (depth 2), skip newline tokens and test whether the next token is
`=>`.  Running off the end of the stream yields false (the source's outer loop
then runs to completion and returns false, since the depth counter can never
equal 2 again). -/
def checkAfterSecondBar : List Tok → Bool
  | [] => false
  | .newline :: rest => checkAfterSecondBar rest
  | t :: _ => t == Tok.fatArrow

/-- The outer loop of `Parser.isPatternMatchStart` after the current `|`
(depth 1) has been counted: scan forward for the second `|`; at the first one
found, decide via `checkAfterSecondBar`.  Newline and end-of-input tokens do
not stop the scan (the source's early exit fires only at depth 0, which is
unreachable past the first bar). -/
def scanForSecondBar : List Tok → Bool
  | [] => false
  | .bitor :: rest => checkAfterSecondBar rest
  | _ :: rest => scanForSecondBar rest

/-- `Parser.isPatternMatchStart` (parser.js, first variant, lines 1422-1445):
true exactly when `Parser.parseBitOr` (lines 1400-1420) breaks out of the
bitwise-OR loop and leaves the `|` to be parsed as a pattern guard. -/
def isPatternMatchStart : List Tok → Bool
  | .bitor :: rest => scanForSecondBar rest
  | _ => false

/-! ### The AST

Tagged variants mirroring `NodeType` of parser.js (first variant).  The parser
builds member accesses in exactly two shapes: non-computed with a string
property (`expr.name`) and computed with an expression property (`expr[e]`);
they are two constructors here.  `if` alternates are either a nested `if` or a
block, as built by `parseIfStatement`. -/

inductive JSVal
  | num (n : Int)
  | str (s : String)
  | bool (b : Bool)
  | null
  deriving DecidableEq, Repr

/-- Left-hand side of a `dec` declaration (`parseDecDeclaration`): a scalar
name, an object pattern of `(key, value)` pairs (renaming `key: value`), or an
array pattern with `none` for holes. -/
inductive DecLHS
  | scalar (name : String)
  | objPattern (props : List (String × String))
  | arrPattern (elems : List (Option String))
  deriving DecidableEq, Repr

mutual

inductive Expr
  | literal (value : JSVal) (raw : String) (isNumber isString : Bool)
  | identifier (name : String)
  | binary (op : String) (left right : Expr)
  | unary (op : String) (argument : Expr)
  | assignment (op : String) (left right : Expr)
  | call (callee : Expr) (args : List Expr)
  | member (object : Expr) (property : String)
  | memberComputed (object : Expr) (property : Expr)
  | arrayLit (elements : List Expr)
  | objectLit (properties : List ObjProp)
  | arrowFunction (params : List FnParam) (body : ArrowBody)
  | conditional (test consequent alternate : Expr)
  | awaitExpr (argument : Expr)
  | spreadElement (argument : Expr)
  | rangeExpr (startE endE : Expr)
  | flowExpr (name : String) (functions : List String)
  | pipeExpr (left right : Expr)
  | templateLiteral (parts : List String) (expressions : List Expr)
  | jsBlockExpr (inputs : List String) (code : String)
  | shellBlockExpr (inputs : List String) (command : String)
  | regexLit (pattern : String) (flags : String)

inductive ObjProp
  | prop (key : String) (value : Expr) (shorthand : Bool)
  | spreadProp (argument : Expr)

inductive ArrowBody
  | expr (e : Expr)
  | block (body : List Stmt)

inductive FnParam
  | plain (name : String) (defaultValue : Option Expr)
  | restParam (argument : String)

inductive EnumMember
  | mk (name : String) (value : Option Expr)

inductive MatchCase
  | mk (test : Expr) (isRegex : Bool) (consequent : Stmt)

inductive CatchClause
  | mk (param : Option String) (body : List Stmt)

inductive IfAlt
  | elseIf (test : Expr) (consequent : List Stmt) (alternate : Option IfAlt)
  | elseBlock (body : List Stmt)

inductive Stmt
  | dec (lhs : DecLHS) (init : Expr) (secret exposed : Bool)
  | functionDeclaration (name : String) (params : List FnParam)
      (body : List Stmt) (isAsync memoized exposed : Bool)
  | ifStmt (test : Expr) (consequent : List Stmt) (alternate : Option IfAlt)
  | whileStmt (test : Expr) (body : List Stmt)
  | forInStmt (varName : String) (iterable : Expr) (body : List Stmt)
  | returnStmt (argument : Option Expr)
  | breakStmt
  | continueStmt
  | tryStmt (block : List Stmt) (handler : Option CatchClause)
      (finalizer : Option (List Stmt))
  | throwStmt (argument : Expr)
  | patternMatch (cases : List MatchCase)
  | printStmt (argument : Expr)
  | depStatement (aliasName : String) (path : String) (pathParts : List String)
      (overrides : Option Expr)
  | enumDeclaration (name : String) (members : List EnumMember)
  | argDeclaration (name : String) (required : Bool)
      (defaultValue : Option Expr) (secret : Bool)
  | envDeclaration (name : String) (required : Bool)
      (defaultValue : Option Expr) (secret : Bool)
  | jsBlock (inputs : List String) (code : String)
  | shellBlock (inputs : List String) (command : String)
  | testBlock (name : String) (body : List Stmt)
  | describeBlock (name : String) (body : List Stmt)
  | expectStatement (actual : Expr) (matcher : String) (expected : Option Expr)
  | assertStatement (condition : Expr) (message : Option Expr)
  | expressionStatement (expression : Expr)
  | blockStatement (body : List Stmt)

end

/-! ### Code generator (generator.js `CodeGenerator`)

The generator carries an indent level (`indentStr` is the default two spaces)
and appends lines with `emitLine`; we model the output as the returned string
and the indent as an explicit `Nat`.  A node kind missing from a `visit*`
switch hits the `default:` branch, which throws; emission is therefore
`Except String String`. -/

def getIndent : Nat → String
  | 0 => ""
  | n + 1 => "  " ++ getIndent n

def hexDigitChar (n : Nat) : Char :=
  if n < 10 then Char.ofNat (48 + n) else Char.ofNat (87 + n)

def hex4 (n : Nat) : String :=
  String.mk [hexDigitChar ((n / 4096) % 16), hexDigitChar ((n / 256) % 16),
             hexDigitChar ((n / 16) % 16), hexDigitChar (n % 16)]

/-- `JSON.stringify` on a string value, as the generator uses it for string
literals, object keys, test names and the default assert message. -/
def jsonEscapeChar (c : Char) : String :=
  if c = '"' then "\\\""
  else if c = '\\' then "\\\\"
  else if c = '\n' then "\\n"
  else if c = '\t' then "\\t"
  else if c = '\r' then "\\r"
  else if c = '\x08' then "\\b"
  else if c = '\x0c' then "\\f"
  else if c.toNat < 32 then "\\u" ++ hex4 c.toNat
  else String.singleton c

def jsonStringify (s : String) : String :=
  "\"" ++ String.join (s.data.map jsonEscapeChar) ++ "\""

/-- String interpolation of a JavaScript value (template-literal coercion). -/
def jsValToString : JSVal → String
  | .num n => toString n
  | .str s => s
  | .bool b => if b then "true" else "false"
  | .null => "null"

/-- `CodeGenerator.visitLiteral`: numbers re-emit their raw textual form,
strings go through `JSON.stringify` unless they are raw backtick literals. -/
def visitLiteralStr (v : JSVal) (raw : String) (isNumber isString : Bool) : String :=
  if isNumber then raw
  else if isString || (match v with | .str _ => true | _ => false) then
    (if raw.startsWith "`" then raw
     else jsonStringify (match v with | .str s => s | _ => jsValToString v))
  else match v with
    | .null => "null"
    | .bool b => if b then "true" else "false"
    | _ => if raw = "" then jsValToString v else raw

/-- Escape backticks in a template-literal text part (`visitTemplateLiteral`). -/
def escapeBackticks (s : String) : String :=
  String.join (s.data.map fun c => if c = '`' then "\\`" else String.singleton c)

def jsIdentStartChar (c : Char) : Bool := c.isAlpha || c = '_' || c = '$'

def jsIdentChar (c : Char) : Bool := c.isAlphanum || c = '_' || c = '$'

/-- The object-key test `/^[a-zA-Z_$][a-zA-Z0-9_$]*$/` of `visitObjectExpression`. -/
def jsIdentKeyOk (s : String) : Bool :=
  match s.data with
  | [] => false
  | c :: rest => jsIdentStartChar c && rest.all jsIdentChar

/-- Raw JS lines of a statement-form `js` block: each nonempty trimmed line is
re-emitted at the given indent (`visitJSBlock`). -/
def jsBlockLines (ind : Nat) (code : String) : String :=
  String.join ((code.splitOn "\n").map fun line =>
    if line.trim = "" then "" else getIndent ind ++ line.trim ++ "\n")

/-- Raw JS text of an expression-form `js` block: nonempty trimmed lines joined
by single spaces (`visitJSBlockExpression`). -/
def jsBlockExprBody (code : String) : String :=
  String.intercalate " " (((code.splitOn "\n").filter (fun l => l.trim ≠ "")).map (·.trim))

mutual

/-- `CodeGenerator.visitExpression` (generator.js lines 732-773) with every
case translated; node kinds absent from the switch (`RegexLiteral`,
`ShellBlock`) fall through to the `default:` throw. -/
def visitExpression (ind : Nat) : Expr → Except String String
  | .literal v raw isNum isStr => pure (visitLiteralStr v raw isNum isStr)
  | .identifier n => pure n
  | .binary op l r => do
      let left ← visitExpression ind l
      let right ← visitExpression ind r
      if op = "is" then
        pure ("(" ++ left ++ "?.name === " ++ right ++ "?.name)")
      else if op = "is not" then
        pure ("(" ++ left ++ "?.name !== " ++ right ++ "?.name)")
      else
        pure ("(" ++ left ++ " " ++ op ++ " " ++ right ++ ")")
  | .unary op a => do
      let arg ← visitExpression ind a
      if op = "!" || op = "~" || op = "-" then pure (op ++ arg)
      else pure (op ++ " " ++ arg)
  | .assignment op l r => do
      let left ← visitExpression ind l
      let right ← visitExpression ind r
      pure (left ++ " " ++ op ++ " " ++ right)
  | .call callee args => do
      let c ← visitExpression ind callee
      let as ← visitExprCommaList ind args
      pure (c ++ "(" ++ String.intercalate ", " as ++ ")")
  | .member obj prop => do
      let o ← visitExpression ind obj
      pure (o ++ "?." ++ prop)
  | .memberComputed obj prop => do
      let o ← visitExpression ind obj
      let p ← visitExpression ind prop
      pure (o ++ "?.[" ++ p ++ "]")
  | .arrayLit elems => do
      let es ← visitExprCommaList ind elems
      pure ("[" ++ String.intercalate ", " es ++ "]")
  | .objectLit props => do
      if props.isEmpty then pure "\x7b\x7d"
      else do
        let ps ← visitObjPropList ind props
        pure ("\x7b " ++ String.intercalate ", " ps ++ " \x7d")
  | .arrowFunction params body => do
      let ps ← genParamsList ind params
      let paramsStr := match params with
        | [.plain n none] => n
        | [.restParam _] => "undefined"
        | _ => "(" ++ String.intercalate ", " ps ++ ")"
      match body with
      | .expr e => do
          let b ← visitExpression ind e
          pure (paramsStr ++ " => " ++ b)
      | .block stmts => do
          let bodyContent ← visitStmtList (ind + 1) stmts
          pure (paramsStr ++ " => \x7b\n" ++ bodyContent ++ getIndent ind ++ "\x7d")
  | .conditional t c a => do
      let ts ← visitExpression ind t
      let cs ← visitExpression ind c
      let as ← visitExpression ind a
      pure ("(" ++ ts ++ " ? " ++ cs ++ " : " ++ as ++ ")")
  | .awaitExpr a => do
      let s ← visitExpression ind a
      pure ("await " ++ s)
  | .spreadElement a => do
      let s ← visitExpression ind a
      pure ("..." ++ s)
  | .rangeExpr s e => do
      let ss ← visitExpression ind s
      let es ← visitExpression ind e
      pure ("Array.from(\x7b length: " ++ es ++ " - " ++ ss ++ " \x7d, (_, i) => " ++ ss ++ " + i)")
  | .flowExpr name functions =>
      match functions with
      | [] => pure ("const " ++ name ++ " = (x) => x")
      | f0 :: rest =>
          pure ("const " ++ name ++ " = (..._args) => " ++
            rest.foldl (fun acc f => f ++ "(" ++ acc ++ ")") (f0 ++ "(..._args)"))
  | .pipeExpr l r => do
      let left ← visitExpression ind l
      let right ← visitExpression ind r
      pure (right ++ "(" ++ left ++ ")")
  | .templateLiteral parts exprs => do
      let inner ← tmplConcat ind parts exprs
      pure ("`" ++ inner ++ "`")
  | .jsBlockExpr inputs code =>
      if inputs.isEmpty then
        pure ("(() => \x7b " ++ jsBlockExprBody code ++ " \x7d)()")
      else
        let params := String.intercalate ", " inputs
        pure ("((" ++ params ++ ") => \x7b " ++ jsBlockExprBody code ++ " \x7d)(" ++ params ++ ")")
  | .shellBlockExpr _ _ => .error "Unknown expression type: ShellBlock"
  | .regexLit _ _ => .error "Unknown expression type: RegexLiteral"
termination_by structural e => e

def visitExprCommaList (ind : Nat) : List Expr → Except String (List String)
  | [] => pure []
  | e :: rest => do
      let s ← visitExpression ind e
      let r ← visitExprCommaList ind rest
      pure (s :: r)

termination_by structural l => l
def visitObjPropList (ind : Nat) : List ObjProp → Except String (List String)
  | [] => pure []
  | .spreadProp a :: rest => do
      let s ← visitExpression ind a
      let r ← visitObjPropList ind rest
      pure (("..." ++ s) :: r)
  | .prop key value shorthand :: rest => do
      let keyS := if jsIdentKeyOk key then key else jsonStringify key
      let vS ← visitExpression ind value
      let entry := if shorthand && (match value with | .identifier n => n == key | _ => false)
        then keyS
        else keyS ++ ": " ++ vS
      let r ← visitObjPropList ind rest
      pure (entry :: r)

termination_by structural l => l
/-- `visitTemplateLiteral`'s loop: text parts interleaved with embedded
expressions, an expression appended after part `i` only while one remains. -/
def tmplConcat (ind : Nat) (ps : List String) : List Expr → Except String String
  | [] => pure (String.join (ps.map escapeBackticks))
  | e :: es =>
      match ps with
      | [] => pure ""
      | p :: ps2 => do
          let eS ← visitExpression ind e
          let rest ← tmplConcat ind ps2 es
          pure (escapeBackticks p ++ "$\x7b" ++ eS ++ "\x7d" ++ rest)
termination_by structural es => es
/-- `CodeGenerator.generateParams`. -/
def genParamsList (ind : Nat) : List FnParam → Except String (List String)
  | [] => pure []
  | .restParam a :: rest => do
      let r ← genParamsList ind rest
      pure (("..." ++ a) :: r)
  | .plain n none :: rest => do
      let r ← genParamsList ind rest
      pure (n :: r)
  | .plain n (some d) :: rest => do
      let ds ← visitExpression ind d
      let r ← genParamsList ind rest
      pure ((n ++ " = " ++ ds) :: r)

termination_by structural l => l
/-- `CodeGenerator.visitStatement` (generator.js lines 329-403) and the
per-kind emitters it dispatches to.  `isTopLevel` reaches only the
pattern-match case, as in the source.  `ShellBlock` has no case in the switch
and hits the `default:` throw. -/
def visitStatement (ind : Nat) (isTopLevel : Bool) : Stmt → Except String String
  | .dec lhs init secret _exposed => do
      let init0 ← visitExpression ind init
      let init1 := if secret then "_secret(" ++ init0 ++ ")" else init0
      match lhs with
      | .objPattern props =>
          let ps := String.intercalate ", " (props.map fun p =>
            if p.1 = p.2 then p.1 else p.1 ++ ": " ++ p.2)
          pure (getIndent ind ++ "const \x7b " ++ ps ++ " \x7d = _deepFreeze(" ++ init1 ++ ");\n")
      | .arrPattern elems =>
          let es := String.intercalate ", " (elems.map fun e =>
            match e with | none => "" | some n => n)
          pure (getIndent ind ++ "const [" ++ es ++ "] = _deepFreeze(" ++ init1 ++ ");\n")
      | .scalar n =>
          pure (getIndent ind ++ "const " ++ n ++ " = _deepFreeze(" ++ init1 ++ ");\n")
  | .functionDeclaration name params body isAsync memoized _exposed => do
      let asyncStr := if isAsync then "async " else ""
      let ps ← genParamsList ind params
      let paramsStr := String.intercalate ", " ps
      if memoized then do
        let bodyS ← visitStmtList (ind + 3) body
        pure (getIndent ind ++ "const " ++ name ++ " = (() => \x7b\n" ++
          getIndent (ind + 1) ++ "const _cache = new Map();\n" ++
          getIndent (ind + 1) ++ "return " ++ asyncStr ++ "function(" ++ paramsStr ++ ") \x7b\n" ++
          getIndent (ind + 2) ++ "const _key = JSON.stringify([...arguments]);\n" ++
          getIndent (ind + 2) ++ "if (_cache.has(_key)) return _cache.get(_key);\n" ++
          getIndent (ind + 2) ++
            (if isAsync then "const _result = await (async () => \x7b\n"
             else "const _result = (() => \x7b\n") ++
          bodyS ++
          getIndent (ind + 2) ++ "\x7d)();\n" ++
          getIndent (ind + 2) ++ "_cache.set(_key, _result);\n" ++
          getIndent (ind + 2) ++ "return _result;\n" ++
          getIndent (ind + 1) ++ "\x7d;\n" ++
          getIndent ind ++ "\x7d)();\n" ++
          getIndent ind ++ "\n")
      else do
        let bodyS ← visitStmtList (ind + 1) body
        pure (getIndent ind ++ asyncStr ++ "function " ++ name ++ "(" ++ paramsStr ++ ") \x7b\n" ++
          bodyS ++ getIndent ind ++ "\x7d\n" ++ getIndent ind ++ "\n")
  | .ifStmt test consequent alternate => do
      let t ← visitExpression ind test
      let body ← visitStmtList (ind + 1) consequent
      let tail ← visitIfAltStr ind alternate
      pure (getIndent ind ++ "if (" ++ t ++ ") \x7b\n" ++ body ++ tail)
  | .whileStmt test body => do
      let t ← visitExpression ind test
      let b ← visitStmtList (ind + 1) body
      pure (getIndent ind ++ "while (" ++ t ++ ") \x7b\n" ++ b ++ getIndent ind ++ "\x7d\n")
  | .forInStmt v iterable body => do
      let it ← visitExpression ind iterable
      let b ← visitStmtList (ind + 1) body
      pure (getIndent ind ++ "for (const " ++ v ++ " of " ++ it ++ ") \x7b\n" ++ b ++
        getIndent ind ++ "\x7d\n")
  | .returnStmt arg =>
      match arg with
      | some a => do
          let s ← visitExpression ind a
          pure (getIndent ind ++ "return " ++ s ++ ";\n")
      | none => pure (getIndent ind ++ "return;\n")
  | .breakStmt => pure (getIndent ind ++ "break;\n")
  | .continueStmt => pure (getIndent ind ++ "continue;\n")
  | .tryStmt block handler finalizer => do
      let b ← visitStmtList (ind + 1) block
      let h ← match handler with
        | some ⟨param, hbody⟩ => do
            let pstr := match param with
              | some p => "(" ++ p ++ ")"
              | none => ""
            let hb ← visitStmtList (ind + 1) hbody
            pure (getIndent ind ++ "\x7d catch " ++ pstr ++ " \x7b\n" ++ hb)
        | none => pure ""
      let f ← match finalizer with
        | some fbody => do
            let fb ← visitStmtList (ind + 1) fbody
            pure (getIndent ind ++ "\x7d finally \x7b\n" ++ fb)
        | none => pure ""
      pure (getIndent ind ++ "try \x7b\n" ++ b ++ h ++ f ++ getIndent ind ++ "\x7d\n")
  | .throwStmt a => do
      let s ← visitExpression ind a
      pure (getIndent ind ++ "throw " ++ s ++ ";\n")
  | .patternMatch cases => do
      let cs ← patternCasesStr ind isTopLevel true cases
      pure (cs ++ (if cases.isEmpty then "" else getIndent ind ++ "\x7d\n"))
  | .printStmt a => do
      let s ← visitExpression ind a
      pure (getIndent ind ++ "console.log(" ++ s ++ ");\n")
  | .depStatement aliasName _path pathParts overrides => do
      let filePath := "./" ++ String.intercalate "/" pathParts ++ ".km"
      let moduleVar := "_dep_" ++ aliasName
      let head := getIndent ind ++ "import " ++ moduleVar ++ " from '" ++ filePath ++ "';\n"
      match overrides with
      | some o => do
          let os ← visitExpression ind o
          pure (head ++ getIndent ind ++ "const " ++ aliasName ++ " = " ++ moduleVar ++
            "(" ++ os ++ ");\n")
      | none =>
          pure (head ++ getIndent ind ++ "const " ++ aliasName ++ " = " ++ moduleVar ++ "();\n")
  | .enumDeclaration name members => do
      let ms ← enumMembersStr (ind + 1) 0 members
      pure (getIndent ind ++ "const " ++ name ++ " = Object.freeze(\x7b\n" ++ ms ++
        getIndent ind ++ "\x7d);\n" ++ getIndent ind ++ "\n")
  | .argDeclaration _ _ _ _ => pure ""
  | .envDeclaration _ _ _ _ => pure ""
  | .jsBlock inputs code => do
      if inputs.isEmpty then
        pure (getIndent ind ++ "(() => \x7b\n" ++ jsBlockLines (ind + 1) code ++
          getIndent ind ++ "\x7d)();\n" ++ getIndent ind ++ "\n")
      else
        let params := String.intercalate ", " inputs
        pure (getIndent ind ++ "((" ++ params ++ ") => \x7b\n" ++ jsBlockLines (ind + 1) code ++
          getIndent ind ++ "\x7d)(" ++ params ++ ");\n" ++ getIndent ind ++ "\n")
  | .shellBlock _ _ => .error "Unknown statement type: ShellBlock"
  | .testBlock name body => do
      let b ← visitStmtList (ind + 1) body
      pure (getIndent ind ++ "_test(" ++ jsonStringify name ++ ", async () => \x7b\n" ++ b ++
        getIndent ind ++ "\x7d);\n")
  | .describeBlock name body => do
      let b ← visitStmtList (ind + 1) body
      pure (getIndent ind ++ "_describe(" ++ jsonStringify name ++ ", () => \x7b\n" ++ b ++
        getIndent ind ++ "\x7d);\n")
  | .expectStatement actual matcher expected => do
      let a ← visitExpression ind actual
      let e ← match expected with
        | some ex => visitExpression ind ex
        | none => pure ""
      let callArg := if matcher = "toBeNull" || matcher = "toBeTruthy" || matcher = "toBeFalsy"
        then "" else e
      pure (getIndent ind ++ "_expect(" ++ a ++ ")." ++ matcher ++ "(" ++ callArg ++ ");\n")
  | .assertStatement condition message => do
      let c ← visitExpression ind condition
      let m ← match message with
        | some ms => visitExpression ind ms
        | none => pure (jsonStringify "Assertion failed")
      pure (getIndent ind ++ "_assert(" ++ c ++ ", " ++ m ++ ");\n")
  | .expressionStatement e => do
      let s ← visitExpression ind e
      pure (getIndent ind ++ s ++ ";\n")
  | .blockStatement body => do
      let b ← visitStmtList (ind + 1) body
      pure (getIndent ind ++ "\x7b\n" ++ b ++ getIndent ind ++ "\x7d\n")

termination_by structural s => s
/-- The alternate part of `CodeGenerator.visitIfStatement`.  The source
recurses with `isElseIf = true`, emitting `} else ` at the outer indent and
then the nested `if` with no leading indent; the string produced here is
character-for-character the same. -/
def visitIfAltStr (ind : Nat) : Option IfAlt → Except String String
  | none => pure (getIndent ind ++ "\x7d\n")
  | some (.elseIf t2 c2 a2) => do
      let t ← visitExpression ind t2
      let body ← visitStmtList (ind + 1) c2
      let tail ← visitIfAltStr ind a2
      pure (getIndent ind ++ "\x7d else " ++ "if (" ++ t ++ ") \x7b\n" ++ body ++ tail)
  | some (.elseBlock b) => do
      let bs ← visitStmtList (ind + 1) b
      pure (getIndent ind ++ "\x7d else \x7b\n" ++ bs ++ getIndent ind ++ "\x7d\n")
termination_by structural a => a
/-- `CodeGenerator.visitPatternMatch`'s case loop.  For a non-first case the
source visits the guard expression before popping the indent, so that guard is
emitted at `ind + 1`. -/
def patternCasesStr (ind : Nat) (isTopLevel first : Bool) :
    List MatchCase → Except String String
  | [] => pure ""
  | ⟨test, _isRegex, consequent⟩ :: rest => do
      let cond ← visitExpression (if first then ind else ind + 1) test
      let head := getIndent ind ++ (if first then "if" else "\x7d else if") ++
        " (" ++ cond ++ ") \x7b\n"
      let body ← (match consequent with
        | .blockStatement b => visitStmtList (ind + 1) b
        | s => visitStatement (ind + 1) false s)
      let retS := if isTopLevel then "" else getIndent (ind + 1) ++ "return;\n"
      let restS ← patternCasesStr ind isTopLevel false rest
      pure (head ++ body ++ retS ++ restS)

termination_by structural cs => cs
/-- `CodeGenerator.visitEnumDeclaration`'s member loop with its running
`autoValue` counter: an explicit value that is a numeric literal sets the
counter to that value plus one; any other explicit value leaves it unchanged. -/
def enumMembersStr (ind : Nat) (autoVal : Int) : List EnumMember → Except String String
  | [] => pure ""
  | ⟨nm, v⟩ :: rest => do
      let (vs, nextAuto) ← (match v with
        | some e => do
            let s ← visitExpression ind e
            let na : Int := match e with
              | .literal (.num k) _ _ _ => k + 1
              | _ => autoVal
            pure (s, na)
        | none => pure (toString autoVal, autoVal + 1))
      let comma := if rest.isEmpty then "" else ","
      let restS ← enumMembersStr ind nextAuto rest
      pure (getIndent ind ++ nm ++ ": " ++ vs ++ comma ++ "\n" ++ restS)

termination_by structural ms => ms
/-- Sequential emission of the statements of a nested body (`isTopLevel` is
false for every such call in the source). -/
def visitStmtList (ind : Nat) : List Stmt → Except String String
  | [] => pure ""
  | s :: rest => do
      let a ← visitStatement ind false s
      let b ← visitStmtList ind rest
      pure (a ++ b)

termination_by structural l => l
end

/-! ### Except equality (used by concrete evaluation in the theorems) -/

instance {e a : Type} [DecidableEq e] [DecidableEq a] : DecidableEq (Except e a) := fun x y =>
  match x, y with
  | .ok u, .ok v => if h : u = v then .isTrue (by rw [h]) else .isFalse (by simp [h])
  | .error u, .error v => if h : u = v then .isTrue (by rw [h]) else .isFalse (by simp [h])
  | .ok _, .error _ => .isFalse (by simp)
  | .error _, .ok _ => .isFalse (by simp)

/-! ### Immutability tracking (parser.js, first variant)

`Parser.decVariables` is a single `Set` on the parser instance.  It is created
empty in the constructor (line 80), added to by `parseDecDeclaration`
(lines 358, 378, 393) and read by `checkDecImmutability` (line 1266); no other
code touches it.  We model it as a list of names with set-like insertion. -/

/-- `Parser.getRootIdentifier` (lines 1271-1279). -/
def getRootIdentifier : Expr → Option String
  | .identifier n => some n
  | .member obj _ => getRootIdentifier obj
  | .memberComputed obj _ => getRootIdentifier obj
  | _ => none

/-- The `${node.property.name || node.property.value}` interpolation of
`getFullPath` for a computed property: an identifier contributes its name, a
literal its value (JavaScript string coercion), anything else interpolates as
`undefined`. -/
def propNameOrValue : Expr → String
  | .identifier n => n
  | .literal v _ _ _ => jsValToString v
  | _ => "undefined"

/-- `Parser.getFullPath` (lines 1281-1293): the dotted/bracketed access path of
an assignment target. -/
def getFullPath : Expr → String
  | .identifier n => n
  | .member obj prop => getFullPath obj ++ "." ++ prop
  | .memberComputed obj prop => getFullPath obj ++ "[" ++ propNameOrValue prop ++ "]"
  | _ => "<unknown>"

/-- `Parser.checkDecImmutability` (lines 1263-1269): error when the assignment
target's root identifier is in `decVariables`.  JavaScript tests
`rootName && this.decVariables.has(rootName)`, so an empty root name (never
produced by the lexer) would pass. -/
def checkDecImmutability (decVars : List String) (node : Expr) : Option String :=
  match getRootIdentifier node with
  | some rootName =>
      if rootName ≠ "" && decVars.contains rootName then
        some ("Cannot reassign '" ++ getFullPath node ++ "': variable '" ++ rootName ++
          "' is deeply immutable (declared with dec)")
      else none
  | none => none

/-- The assignment operators `parseAssignment` matches (lines 1244-1245):
ASSIGN, PLUS_ASSIGN, MINUS_ASSIGN, STAR_ASSIGN, SLASH_ASSIGN. -/
def assignmentOps : List String := ["=", "+=", "-=", "*=", "/="]

/-- The step `parseAssignment` performs when one of the assignment operators
follows a parsed left-hand side (lines 1244-1258): `checkDecImmutability` runs
before the right-hand side is parsed, and its error aborts the parse. -/
def parseAssignmentStep (decVars : List String) (op : String) (left : Expr) :
    Except String Unit :=
  if assignmentOps.contains op then
    match checkDecImmutability decVars left with
    | some msg => .error msg
    | none => .ok ()
  else .ok ()

/-- The parser actions that touch `decVariables` or consult it, in the order
the statements are parsed.  `decScalar`, `decObjPattern` and `decArrPattern`
are the three registration sites of `parseDecDeclaration`; `enterFunctionBody`
and `exitFunctionBody` mark `parseFunctionDeclaration` entering and leaving a
function body (neither touches `decVariables` in the source); `assignTarget`
is `parseAssignment` matching an assignment operator for a target. -/
inductive ParseEvent
  | decScalar (n : String)
  | decObjPattern (keys : List String)
  | decArrPattern (elems : List (Option String))
  | enterFunctionBody (params : List String)
  | exitFunctionBody
  | assignTarget (target : Expr) (op : String)

/-- `Set.add` on `decVariables`, as a duplicate-free list. -/
def insertDec (s : List String) (n : String) : List String :=
  if s.contains n then s else s ++ [n]

/-- Effect of one parser action on `decVariables`. -/
def decStep (s : List String) : ParseEvent → List String
  | .decScalar n => insertDec s n
  | .decObjPattern keys => keys.foldl insertDec s
  | .decArrPattern elems =>
      elems.foldl (fun acc e => match e with | some n => insertDec acc n | none => acc) s
  | .enterFunctionBody _ => s
  | .exitFunctionBody => s
  | .assignTarget _ _ => s

/-- Whether parsing the event sequence from state `s` hits an immutability
error: at every `assignTarget`, `checkDecImmutability` runs against the
`decVariables` accumulated so far (the source throws at the first hit). -/
def hasImmutabilityError : List String → List ParseEvent → Bool
  | _, [] => false
  | s, e :: rest =>
      (match e with
       | .assignTarget target _ => (checkDecImmutability s target).isSome
       | _ => false) || hasImmutabilityError (decStep s e) rest

/-! ### Secret taint on `js` blocks (parser.js `parseJSBlock`, lines 975-986)

The source filters the block's listed inputs by membership in
`secretVariables`, then tests the reassembled JS text against
`console\s*\.\s*(log|error|warn|info|debug|trace)\s*\([^)]*\b<name>\b`
for each secret input, failing on the first match. -/

/-- JavaScript regex `\s` (the whitespace characters relevant to source text). -/
def isJsWs (c : Char) : Bool :=
  c = ' ' || c = '\t' || c = '\n' || c = '\r' || c.toNat = 11 || c.toNat = 12

/-- JavaScript regex `\w` = `[A-Za-z0-9_]`. -/
def isWordChar (c : Char) : Bool :=
  (c ≥ 'a' && c ≤ 'z') || (c ≥ 'A' && c ≤ 'Z') || (c ≥ '0' && c ≤ '9') || c = '_'

/-- `\b<name>\b` at the head of `cs`, with `prev` the character immediately
before `cs`: the name must be delimited by non-word characters (or the end of
input on the right). -/
def nameMatchesHere (prev : Char) (cs : List Char) (name : List Char) : Bool :=
  !isWordChar prev && name.isPrefixOf cs &&
    (match cs.drop name.length with
     | [] => true
     | c :: _ => !isWordChar c)

/-- `[^)]*\b<name>\b`: scan right of the opening parenthesis, never crossing a
`)`, for a word-delimited occurrence of the name. -/
def scanArgsForName (prev : Char) (cs : List Char) (name : List Char) : Bool :=
  nameMatchesHere prev cs name ||
    (match cs with
     | [] => false
     | c :: rest => if c = ')' then false else scanArgsForName c rest name)

def consoleMethods : List String :=
  ["log", "error", "warn", "info", "debug", "trace"]

/-- One attempted match of the console-secret pattern starting at `cs`. -/
def matchConsoleAt (cs : List Char) (name : List Char) : Bool :=
  if "console".data.isPrefixOf cs then
    let r1 := (cs.drop "console".length).dropWhile isJsWs
    match r1 with
    | '.' :: r2 =>
        let r3 := r2.dropWhile isJsWs
        consoleMethods.any fun m =>
          m.data.isPrefixOf r3 &&
            (match (r3.drop m.length).dropWhile isJsWs with
             | '(' :: r4 => scanArgsForName '(' r4 name
             | _ => false)
    | _ => false
  else false

/-- Unanchored regex search over the whole text. -/
def consoleSecretSearch (cs : List Char) (name : List Char) : Bool :=
  matchConsoleAt cs name ||
    (match cs with
     | [] => false
     | _ :: rest => consoleSecretSearch rest name)

/-- `consolePattern.test(jsCode)` for one secret input name. -/
def consoleSecretMatch (code : String) (name : String) : Bool :=
  consoleSecretSearch code.data name.data

/-- The secret check at the end of `parseJSBlock`: filter the listed inputs by
`secretVariables`, error (at the first offender, in input order) when the
console pattern matches the reassembled block text. -/
def jsBlockSecretCheck (secretVars inputs : List String) (code : String) :
    Option String :=
  match (inputs.filter (fun i => secretVars.contains i)).find?
      (fun k => consoleSecretMatch code k) with
  | some k => some ("Cannot pass secret '" ++ k ++
      "' to console.log in JS block - secrets must not be logged")
  | none => none

/-! ### Type-checker module exports (typechecker.js)

`TypeChecker.moduleExports` is a plain object on the checker.  Walking the
program, exactly three visitor methods write to it: `visitArgDeclaration`
(line 332, every `arg`), `visitDecDeclaration` (line 348, only when
`node.exposed`; a destructured exposed `dec` has no `name` and lands under the
key `"undefined"`), and `visitFunctionDeclaration` (line 390, only when
`node.exposed` and the name was hoisted into `functions` by the first pass
over the top-level body).  `visitEnvDeclaration` (lines 335-341) only binds
the name in scope and writes nothing.  We collect the written keys in visit
order; object assignment keeps the first position of a repeated key, which
`insertKey` mirrors.  The checker also walks arrow-function bodies inside
expressions; expression subtrees are not modelled here, and no claim below
depends on them. -/

def insertKey (m : List String) (k : String) : List String :=
  if m.contains k then m else m ++ [k]

/-- The first pass of `visitProgram` (lines 156-165): hoist every top-level
function declaration's name. -/
def topLevelFns (prog : List Stmt) : List String :=
  prog.filterMap fun s =>
    match s with
    | .functionDeclaration n _ _ _ _ _ => some n
    | _ => none

mutual

/-- The `moduleExports` keys written while `visitStatement` processes one
statement, in write order. -/
def tcExportDecls (fns : List String) : Stmt → List String
  | .dec lhs _ _ exposed =>
      if exposed then
        [match lhs with
         | .scalar n => n
         | _ => "undefined"]
      else []
  | .functionDeclaration n _ body _ _ exposed =>
      (if exposed && fns.contains n then [n] else []) ++ tcExportDeclsList fns body
  | .argDeclaration n _ _ _ => [n]
  | .envDeclaration _ _ _ _ => []
  | .enumDeclaration _ _ => []
  | .ifStmt _ consequent alternate =>
      tcExportDeclsList fns consequent ++ tcExportDeclsAlt fns alternate
  | .whileStmt _ body => tcExportDeclsList fns body
  | .forInStmt _ _ body => tcExportDeclsList fns body
  | .tryStmt block handler finalizer =>
      tcExportDeclsList fns block ++
        (match handler with
         | some ⟨_, hbody⟩ => tcExportDeclsList fns hbody
         | none => []) ++
        (match finalizer with
         | some fbody => tcExportDeclsList fns fbody
         | none => [])
  | .patternMatch cases => tcExportDeclsCases fns cases
  | .blockStatement body => tcExportDeclsList fns body
  | .testBlock _ body => tcExportDeclsList fns body
  | .describeBlock _ body => tcExportDeclsList fns body
  | _ => []
termination_by structural s => s

def tcExportDeclsList (fns : List String) : List Stmt → List String
  | [] => []
  | s :: rest => tcExportDecls fns s ++ tcExportDeclsList fns rest
termination_by structural l => l

def tcExportDeclsAlt (fns : List String) : Option IfAlt → List String
  | none => []
  | some (.elseIf _ c a) => tcExportDeclsList fns c ++ tcExportDeclsAlt fns a
  | some (.elseBlock b) => tcExportDeclsList fns b
termination_by structural a => a

def tcExportDeclsCases (fns : List String) : List MatchCase → List String
  | [] => []
  | ⟨_, _, consequent⟩ :: rest =>
      (match consequent with
       | .blockStatement b => tcExportDeclsList fns b
       | s => tcExportDecls fns s) ++ tcExportDeclsCases fns rest
termination_by structural cs => cs

end

/-- The per-module export object after `check` has walked the program: the set
of keys of `moduleExports`, in first-write order. -/
def moduleExportsOf (prog : List Stmt) : List String :=
  (tcExportDeclsList (topLevelFns prog) prog).foldl insertKey []

/-- The publication condition at the end of `TypeChecker.check` (lines 62-65):
the export object reaches the registry only when a module path was supplied
and the object is nonempty. -/
def checkPublishes (modulePath : Option String) (exps : List String) : Bool :=
  modulePath.isSome && !exps.isEmpty

/-! ### Program emission (`CodeGenerator.visitProgram`, generator.js 204-312)

`visitProgram` first emits one import line per `DepStatement`, then a blank
line when any dependency exists, then `emitRuntimeExtensions` (the fixed
runtime preamble), then the `export default` factory wrapper whose body holds
required-argument checks, argument extraction, environment checks and
extraction, dependency resolution, the remaining statements at indent 1 with
`isTopLevel = true`, and the exports return. -/

/-- The lines `emitRuntimeExtensions` (generator.js 38-191) produces, each as
an (indent level, text) pair of one `emitLine` call, in order. -/
def runtimeExtensionLines : List (Nat × String) := [
  (0, "// KimchiLang stdlib extensions"),
  (0, "if (!Array.prototype._kmExtended) \x7b"),
  (1, "Array.prototype._kmExtended = true;"),
  (1, "Array.prototype.first = function() \x7b return this[0]; \x7d;"),
  (1, "Array.prototype.last = function() \x7b return this[this.length - 1]; \x7d;"),
  (1, "Array.prototype.isEmpty = function() \x7b return this.length === 0; \x7d;"),
  (1, "Array.prototype.sum = function() \x7b return this.reduce((a, b) => a + b, 0); \x7d;"),
  (1, "Array.prototype.product = function() \x7b return this.reduce((a, b) => a * b, 1); \x7d;"),
  (1, "Array.prototype.average = function() \x7b return this.reduce((a, b) => a + b, 0) / this.length; \x7d;"),
  (1, "Array.prototype.max = function() \x7b return Math.max(...this); \x7d;"),
  (1, "Array.prototype.min = function() \x7b return Math.min(...this); \x7d;"),
  (1, "Array.prototype.take = function(n) \x7b return this.slice(0, n); \x7d;"),
  (1, "Array.prototype.drop = function(n) \x7b return this.slice(n); \x7d;"),
  (1, "Array.prototype.flatten = function() \x7b return this.flat(Infinity); \x7d;"),
  (1, "Array.prototype.unique = function() \x7b return [...new Set(this)]; \x7d;"),
  (0, "\x7d"),
  (0, "if (!String.prototype._kmExtended) \x7b"),
  (1, "String.prototype._kmExtended = true;"),
  (1, "String.prototype.isEmpty = function() \x7b return this.length === 0; \x7d;"),
  (1, "String.prototype.isBlank = function() \x7b return this.trim().length === 0; \x7d;"),
  (1, "String.prototype.toChars = function() \x7b return this.split(\"\"); \x7d;"),
  (1, "String.prototype.toLines = function() \x7b return this.split(\"\\n\"); \x7d;"),
  (1, "String.prototype.capitalize = function() \x7b return this.length === 0 ? this : this[0].toUpperCase() + this.slice(1); \x7d;"),
  (0, "\x7d"),
  (0, "const _obj = \x7b"),
  (1, "keys: (o) => Object.keys(o),"),
  (1, "values: (o) => Object.values(o),"),
  (1, "entries: (o) => Object.entries(o),"),
  (1, "fromEntries: (arr) => Object.fromEntries(arr),"),
  (1, "has: (o, k) => Object.hasOwn(o, k),"),
  (1, "freeze: (o) => Object.freeze(o),"),
  (1, "isEmpty: (o) => Object.keys(o).length === 0,"),
  (1, "size: (o) => Object.keys(o).length,"),
  (0, "\x7d;"),
  (0, ""),
  (0, "function error(message, name = \"Error\") \x7b"),
  (1, "const e = new Error(message);"),
  (1, "e.name = name;"),
  (1, "return e;"),
  (0, "\x7d"),
  (0, "error.create = (name) => \x7b"),
  (1, "const fn = (message) => error(message, name);"),
  (1, "Object.defineProperty(fn, \"name\", \x7b value: name, writable: false \x7d);"),
  (1, "return fn;"),
  (0, "\x7d;"),
  (0, ""),
  (0, "class _Secret \x7b"),
  (1, "constructor(value) \x7b this._value = value; \x7d"),
  (1, "toString() \x7b return \"********\"; \x7d"),
  (1, "valueOf() \x7b return this._value; \x7d"),
  (1, "get value() \x7b return this._value; \x7d"),
  (1, "[Symbol.toPrimitive](hint) \x7b return hint === \"string\" ? \"********\" : this._value; \x7d"),
  (0, "\x7d"),
  (0, "function _secret(value) \x7b return new _Secret(value); \x7d"),
  (0, ""),
  (0, "function _deepFreeze(obj) \x7b"),
  (1, "if (obj === null || typeof obj !== \"object\") return obj;"),
  (1, "Object.keys(obj).forEach(key => _deepFreeze(obj[key]));"),
  (1, "return Object.freeze(obj);"),
  (0, "\x7d"),
  (0, ""),
  (0, "// Testing framework"),
  (0, "const _tests = [];"),
  (0, "let _currentDescribe = null;"),
  (0, "function _describe(name, fn) \x7b"),
  (1, "const prev = _currentDescribe;"),
  (1, "_currentDescribe = \x7b name, tests: [], parent: prev \x7d;"),
  (1, "fn();"),
  (1, "if (prev) \x7b prev.tests.push(_currentDescribe); \x7d"),
  (1, "else \x7b _tests.push(_currentDescribe); \x7d"),
  (1, "_currentDescribe = prev;"),
  (0, "\x7d"),
  (0, "function _test(name, fn) \x7b"),
  (1, "const test = \x7b name, fn, describe: _currentDescribe \x7d;"),
  (1, "if (_currentDescribe) \x7b _currentDescribe.tests.push(test); \x7d"),
  (1, "else \x7b _tests.push(test); \x7d"),
  (0, "\x7d"),
  (0, "function _expect(actual) \x7b"),
  (1, "return \x7b"),
  (2, "toBe(expected) \x7b if (actual !== expected) throw new Error(`Expected $\x7bJSON.stringify(expected)\x7d but got $\x7bJSON.stringify(actual)\x7d`); \x7d,"),
  (2, "toEqual(expected) \x7b if (JSON.stringify(actual) !== JSON.stringify(expected)) throw new Error(`Expected $\x7bJSON.stringify(expected)\x7d to equal $\x7bJSON.stringify(actual)\x7d`); \x7d,"),
  (2, "toContain(item) \x7b if (!actual.includes(item)) throw new Error(`Expected $\x7bJSON.stringify(actual)\x7d to contain $\x7bJSON.stringify(item)\x7d`); \x7d,"),
  (2, "toBeNull() \x7b if (actual !== null) throw new Error(`Expected null but got $\x7bJSON.stringify(actual)\x7d`); \x7d,"),
  (2, "toBeTruthy() \x7b if (!actual) throw new Error(`Expected truthy but got $\x7bJSON.stringify(actual)\x7d`); \x7d,"),
  (2, "toBeFalsy() \x7b if (actual) throw new Error(`Expected falsy but got $\x7bJSON.stringify(actual)\x7d`); \x7d,"),
  (2, "toBeGreaterThan(n) \x7b if (actual <= n) throw new Error(`Expected $\x7bactual\x7d > $\x7bn\x7d`); \x7d,"),
  (2, "toBeLessThan(n) \x7b if (actual >= n) throw new Error(`Expected $\x7bactual\x7d < $\x7bn\x7d`); \x7d,"),
  (2, "toHaveLength(n) \x7b if (actual.length !== n) throw new Error(`Expected length $\x7bn\x7d but got $\x7bactual.length\x7d`); \x7d,"),
  (2, "toMatch(pattern) \x7b if (!pattern.test(actual)) throw new Error(`Expected $\x7bJSON.stringify(actual)\x7d to match $\x7bpattern\x7d`); \x7d,"),
  (2, "toThrow(msg) \x7b try \x7b actual(); throw new Error(\"Expected to throw\"); \x7d catch(e) \x7b if (msg && !e.message.includes(msg)) throw new Error(`Expected error containing \"$\x7bmsg\x7d\" but got \"$\x7be.message\x7d\"`); \x7d \x7d,"),
  (1, "\x7d;"),
  (0, "\x7d"),
  (0, "function _assert(condition, message) \x7b if (!condition) throw new Error(message); \x7d"),
  (0, "async function _runTests() \x7b"),
  (1, "let passed = 0, failed = 0;"),
  (1, "async function runItem(item, indent = \"\") \x7b"),
  (2, "if (item.fn) \x7b"),
  (3, "try \x7b await item.fn(); console.log(indent + \"\u2713 \" + item.name); passed++; \x7d"),
  (3, "catch (e) \x7b console.log(indent + \"\u2717 \" + item.name); console.log(indent + \"  \" + e.message); failed++; \x7d"),
  (2, "\x7d else \x7b"),
  (3, "console.log(indent + item.name);"),
  (3, "for (const t of item.tests) await runItem(t, indent + \"  \");"),
  (2, "\x7d"),
  (1, "\x7d"),
  (1, "for (const item of _tests) await runItem(item);"),
  (1, "console.log(`\\n$\x7bpassed + failed\x7d tests, $\x7bpassed\x7d passed, $\x7bfailed\x7d failed`);"),
  (1, "return \x7b passed, failed \x7d;"),
  (0, "\x7d"),
  (0, "")]

/-- The full text `emitRuntimeExtensions` appends (at base indent 0). -/
def runtimeExtensionsText : String :=
  String.join (runtimeExtensionLines.map fun p => getIndent p.1 ++ p.2 ++ "\n")

def isDepStmt : Stmt → Bool
  | .depStatement _ _ _ _ => true
  | _ => false

def isArgDecl : Stmt → Bool
  | .argDeclaration _ _ _ _ => true
  | _ => false

def isEnvDecl : Stmt → Bool
  | .envDeclaration _ _ _ _ => true
  | _ => false

/-- One raw import line per dependency (generator.js 219-223). -/
def depImportLine : Stmt → String
  | .depStatement a _ parts _ =>
      "import _dep_" ++ a ++ " from './" ++ String.intercalate "/" parts ++ ".km';\n"
  | _ => ""

/-- The import section: the dependency import lines, then one blank line when
any dependency exists (generator.js 219-226). -/
def importsSectionOf (prog : List Stmt) : String :=
  let deps := prog.filter isDepStmt
  String.join (deps.map depImportLine) ++ (if deps.isEmpty then "" else "\n")

/-- The first line of the module-factory wrapper (generator.js 232). -/
def factoryOpenLine : String := "export default function(_opts = \x7b\x7d) \x7b\n"

def argIsRequired : Stmt → Bool
  | .argDeclaration _ req _ _ => req
  | _ => false

/-- Required-argument existence check (generator.js 236-240). -/
def argRequiredLine : Stmt → String
  | .argDeclaration n true _ _ =>
      getIndent 1 ++ "if (_opts[\"" ++ n ++ "\"] === undefined) throw new Error(\"Required argument '" ++
        n ++ "' not provided\");\n"
  | _ => ""

/-- Argument extraction from `_opts` (generator.js 246-255). -/
def argExtractLines : List Stmt → Except String String
  | [] => pure ""
  | .argDeclaration n _ dv sec :: rest => do
      let w := if sec then "_secret(" else ""
      let c := if sec then ")" else ""
      let line ← match dv with
        | some d => do
            let ds ← visitExpression 1 d
            pure (getIndent 1 ++ "const " ++ n ++ " = " ++ w ++ "_opts[\"" ++ n ++
              "\"] !== undefined ? _opts[\"" ++ n ++ "\"] : " ++ ds ++ c ++ ";\n")
        | none =>
            pure (getIndent 1 ++ "const " ++ n ++ " = " ++ w ++ "_opts[\"" ++ n ++ "\"]" ++ c ++ ";\n")
      let rest2 ← argExtractLines rest
      pure (line ++ rest2)
  | _ :: rest => argExtractLines rest

def envIsRequired : Stmt → Bool
  | .envDeclaration _ req _ _ => req
  | _ => false

/-- Required-environment check (generator.js 261-265). -/
def envRequiredLine : Stmt → String
  | .envDeclaration n true _ _ =>
      getIndent 1 ++ "if (process.env[\"" ++ n ++ "\"] === undefined) throw new Error(\"Required environment variable '" ++
        n ++ "' not set\");\n"
  | _ => ""

/-- Environment-variable extraction (generator.js 270-279). -/
def envExtractLines : List Stmt → Except String String
  | [] => pure ""
  | .envDeclaration n _ dv sec :: rest => do
      let w := if sec then "_secret(" else ""
      let c := if sec then ")" else ""
      let line ← match dv with
        | some d => do
            let ds ← visitExpression 1 d
            pure (getIndent 1 ++ "const " ++ n ++ " = " ++ w ++ "process.env[\"" ++ n ++
              "\"] !== undefined ? process.env[\"" ++ n ++ "\"] : " ++ ds ++ c ++ ";\n")
        | none =>
            pure (getIndent 1 ++ "const " ++ n ++ " = " ++ w ++ "process.env[\"" ++ n ++ "\"]" ++ c ++ ";\n")
      let rest2 ← envExtractLines rest
      pure (line ++ rest2)
  | _ :: rest => envExtractLines rest

/-- Dependency resolution against `_opts` (generator.js 285-295). -/
def depResolveLines : List Stmt → Except String String
  | [] => pure ""
  | .depStatement a path _ overrides :: rest => do
      let moduleVar := "_dep_" ++ a
      let line ← match overrides with
        | some o => do
            let os ← visitExpression 1 o
            pure (getIndent 1 ++ "const " ++ a ++ " = _opts[\"" ++ path ++ "\"] || " ++
              moduleVar ++ "(" ++ os ++ ");\n")
        | none =>
            pure (getIndent 1 ++ "const " ++ a ++ " = _opts[\"" ++ path ++ "\"] || " ++
              moduleVar ++ "();\n")
      let rest2 ← depResolveLines rest
      pure (line ++ rest2)
  | _ :: rest => depResolveLines rest

/-- `CodeGenerator.collectExports` (generator.js 314-327): names of exposed
functions and `dec` bindings among the emitted statements.  A destructured
exposed `dec` has no `name`; `Array.prototype.join` renders that `undefined`
entry as an empty string. -/
def collectExports : List Stmt → List String
  | [] => []
  | s :: rest =>
      (match s with
       | .functionDeclaration n _ _ _ _ true => [n]
       | .dec lhs _ _ true => [match lhs with | .scalar n => n | _ => ""]
       | _ => []) ++ collectExports rest

/-- The remaining statements, emitted at indent 1 with `isTopLevel = true`
(generator.js 299-301). -/
def visitTopStmtList : List Stmt → Except String String
  | [] => pure ""
  | s :: rest => do
      let a ← visitStatement 1 true s
      let b ← visitTopStmtList rest
      pure (a ++ b)

/-- Everything `visitProgram` emits after the factory's opening line: the
required-argument checks, argument extraction, environment checks and
extraction, dependency resolution, the remaining statements (indent 1,
`isTopLevel = true`), the exports return, and the closing brace. -/
def generateFactoryBody (prog : List Stmt) : Except String String := do
  let deps := prog.filter isDepStmt
  let args := prog.filter isArgDecl
  let envs := prog.filter isEnvDecl
  let others := prog.filter fun s => !isDepStmt s && !isArgDecl s && !isEnvDecl s
  let argExtract ← argExtractLines args
  let envExtract ← envExtractLines envs
  let depResolve ← depResolveLines deps
  let body ← visitTopStmtList others
  let exps := collectExports others
  let retSection := if exps.isEmpty then "" else
    getIndent 1 ++ "\n" ++ getIndent 1 ++ "return \x7b " ++ String.intercalate ", " exps ++ " \x7d;\n"
  pure (String.join (args.map argRequiredLine) ++
    (if args.any argIsRequired then getIndent 1 ++ "\n" else "") ++
    argExtract ++ (if args.isEmpty then "" else getIndent 1 ++ "\n") ++
    String.join (envs.map envRequiredLine) ++
    (if envs.any envIsRequired then getIndent 1 ++ "\n" else "") ++
    envExtract ++ (if envs.isEmpty then "" else getIndent 1 ++ "\n") ++
    depResolve ++ (if deps.isEmpty then "" else getIndent 1 ++ "\n") ++
    body ++ retSection ++ "\x7d\n")

/-- `generate` / `CodeGenerator.visitProgram` (generator.js 204-312 and
1033-1036): the emitted file is the import section, then the runtime
preamble, then the factory opening line and factory body. -/
def generate (prog : List Stmt) : Except String String :=
  (generateFactoryBody prog).map fun t =>
    importsSectionOf prog ++ runtimeExtensionsText ++ factoryOpenLine ++ t

/-! ### Parser shapes for pipe chains (for C9) and the specification-side
enum-counter semantics (for C8) -/

/-- `Parser.parsePipe`'s loop (parser.js 1350-1366): each further `~>` operand
wraps the accumulated expression on the left, giving a left-nested chain. -/
def parsePipeChain (first : Expr) (rest : List Expr) : Expr :=
  rest.foldl Expr.pipeExpr first

/-- Written from the specification's words for claim C8 (to be compared with
the emitter): member values come from an auto-incrementing counter starting at
0, and an explicit member value resets the running counter so subsequent
implicit members continue from it. -/
def specEnumValues : Int → List (String × Option Int) → List (String × Int)
  | _, [] => []
  | ctr, (nm, none) :: rest => (nm, ctr) :: specEnumValues (ctr + 1) rest
  | _, (nm, some k) :: rest => (nm, k) :: specEnumValues (k + 1) rest

/-- An enum member whose explicit value (if any) is a decimal numeric literal,
abstracted to its name and optional value.  Only these members are covered by
the amended counter claim; the emitter re-emits the literal's raw text, so the
raw form must be the decimal rendering for the texts to agree. -/
def abstractEnumMember : EnumMember → Option (String × Option Int)
  | ⟨nm, none⟩ => some (nm, none)
  | ⟨nm, some (.literal (.num k) raw true _)⟩ =>
      if raw = toString k then some (nm, some k) else none
  | _ => none

/-- Rendering of resolved enum member values in the emitter's output shape. -/
def renderEnumBody (ind : Nat) : List (String × Int) → String
  | [] => ""
  | (nm, v) :: rest =>
      getIndent ind ++ nm ++ ": " ++ toString v ++ (if rest.isEmpty then "" else ",") ++
        "\n" ++ renderEnumBody ind rest

def renderEnum (ind : Nat) (name : String) (vals : List (String × Int)) : String :=
  getIndent ind ++ "const " ++ name ++ " = Object.freeze(\x7b\n" ++
    renderEnumBody (ind + 1) vals ++ getIndent ind ++ "\x7d);\n" ++ getIndent ind ++ "\n"

/-! ## Theorems -/

theorem strData_append (a b : String) : (a ++ b).data = a.data ++ b.data := by
  cases a; cases b; rfl

theorem strHead_append (a b : String) (c : Char) (h : a.data.head? = some c) :
    (a ++ b).data.head? = some c := by
  rw [strData_append]
  cases ha : a.data with
  | nil => rw [ha] at h; simp at h
  | cons x xs => rw [ha] at h; simpa using h

theorem checkAfterSecondBar_iff (l : List Tok) :
    checkAfterSecondBar l = true ↔
      ∃ nls rest2, l = nls ++ Tok.fatArrow :: rest2 ∧ ∀ t ∈ nls, t = Tok.newline := by
  induction l with
  | nil =>
      constructor
      · intro h; simp [checkAfterSecondBar] at h
      · rintro ⟨nls, r2, h, -⟩
        exact absurd h.symm (List.append_ne_nil_of_right_ne_nil _ (by simp))
  | cons t rest ih =>
      by_cases ht : t = Tok.newline
      · subst ht
        rw [show checkAfterSecondBar (Tok.newline :: rest) = checkAfterSecondBar rest from rfl, ih]
        constructor
        · rintro ⟨nls, r2, rfl, hn⟩
          refine ⟨Tok.newline :: nls, r2, rfl, ?_⟩
          intro x hx
          rcases List.mem_cons.mp hx with h | h
          · exact h
          · exact hn _ h
        · rintro ⟨nls, r2, heq, hn⟩
          cases nls with
          | nil => exact absurd (List.head_eq_of_cons_eq heq) (by simp)
          | cons a nls2 =>
              obtain ⟨-, htl⟩ := List.cons_eq_cons.mp heq
              exact ⟨nls2, r2, htl, fun x hx => hn x (List.mem_cons_of_mem _ hx)⟩
      · have hred : checkAfterSecondBar (t :: rest) = (t == Tok.fatArrow) := by
          cases t <;> simp_all [checkAfterSecondBar]
        rw [hred]
        constructor
        · intro h
          have : t = Tok.fatArrow := by simpa using h
          subst this
          exact ⟨[], rest, rfl, by simp⟩
        · rintro ⟨nls, r2, heq, hn⟩
          cases nls with
          | nil =>
              have := List.head_eq_of_cons_eq heq
              simp [this]
          | cons a nls2 =>
              have ha := List.head_eq_of_cons_eq heq
              exact absurd (ha.trans (hn a (List.mem_cons_self a nls2))) ht

theorem scanForSecondBar_iff (l : List Tok) :
    scanForSecondBar l = true ↔
      ∃ mid rest, l = mid ++ Tok.bitor :: rest ∧ Tok.bitor ∉ mid ∧
        checkAfterSecondBar rest = true := by
  induction l with
  | nil =>
      constructor
      · intro h; simp [scanForSecondBar] at h
      · rintro ⟨mid, r, h, -, -⟩
        exact absurd h.symm (List.append_ne_nil_of_right_ne_nil _ (by simp))
  | cons t rest ih =>
      by_cases ht : t = Tok.bitor
      · subst ht
        rw [show scanForSecondBar (Tok.bitor :: rest) = checkAfterSecondBar rest from rfl]
        constructor
        · intro h; exact ⟨[], rest, rfl, by simp, h⟩
        · rintro ⟨mid, r, heq, hnot, hchk⟩
          cases mid with
          | nil =>
              obtain ⟨-, htl⟩ := List.cons_eq_cons.mp heq
              rwa [htl]
          | cons a mid2 =>
              have ha := List.head_eq_of_cons_eq heq
              exact absurd (by rw [← ha]; exact List.mem_cons_self _ _ : Tok.bitor ∈ a :: mid2) hnot
      · have hred : scanForSecondBar (t :: rest) = scanForSecondBar rest := by
          cases t <;> simp_all [scanForSecondBar]
        rw [hred, ih]
        constructor
        · rintro ⟨mid, r, rfl, hnot, hchk⟩
          refine ⟨t :: mid, r, rfl, ?_, hchk⟩
          intro hmem
          rcases List.mem_cons.mp hmem with h | h
          · exact ht h.symm
          · exact hnot h
        · rintro ⟨mid, r, heq, hnot, hchk⟩
          cases mid with
          | nil => exact absurd (List.head_eq_of_cons_eq heq) ht
          | cons a mid2 =>
              obtain ⟨-, htl⟩ := List.cons_eq_cons.mp heq
              exact ⟨mid2, r, htl, fun h => hnot (List.mem_cons_of_mem _ h), hchk⟩

/-- Claim C3: at the bitwise-or precedence level, `parseBitOr` hands the
current `|` to the pattern-guard parser exactly when `isPatternMatchStart`
holds, and that holds exactly when a second `|` token — the first one after
the current `|` in the remaining token stream — is followed, ignoring newline
tokens, by `=>`; otherwise the `|` is consumed as binary bitwise-OR.  The
parser's lookahead window is the whole remaining token buffer (newline tokens
are dropped before parsing, so no statement boundary bounds the scan). -/
theorem c3_pattern_guard_lookahead (toks : List Tok) :
    isPatternMatchStart toks = true ↔
      ∃ mid rest nls rest2,
        toks = Tok.bitor :: (mid ++ Tok.bitor :: rest) ∧ Tok.bitor ∉ mid ∧
          rest = nls ++ Tok.fatArrow :: rest2 ∧ ∀ t ∈ nls, t = Tok.newline := by
  cases toks with
  | nil =>
      constructor
      · intro h; simp [isPatternMatchStart] at h
      · rintro ⟨mid, r, nls, r2, h, -, -, -⟩; exact absurd h (by simp)
  | cons t ts =>
      by_cases ht : t = Tok.bitor
      · subst ht
        rw [show isPatternMatchStart (Tok.bitor :: ts) = scanForSecondBar ts from rfl,
          scanForSecondBar_iff]
        constructor
        · rintro ⟨mid, r, rfl, hnot, hchk⟩
          obtain ⟨nls, r2, rfl, hn⟩ := (checkAfterSecondBar_iff r).mp hchk
          exact ⟨mid, nls ++ Tok.fatArrow :: r2, nls, r2, rfl, hnot, rfl, hn⟩
        · rintro ⟨mid, r, nls, r2, heq, hnot, rfl, hn⟩
          obtain ⟨-, htl⟩ := List.cons_eq_cons.mp heq
          exact ⟨mid, nls ++ Tok.fatArrow :: r2, htl, hnot,
            (checkAfterSecondBar_iff _).mpr ⟨nls, r2, rfl, hn⟩⟩
      · have hred : isPatternMatchStart (t :: ts) = false := by
          cases t <;> simp_all [isPatternMatchStart]
        rw [hred]
        constructor
        · intro h; exact absurd h (by simp)
        · rintro ⟨mid, r, nls, r2, heq, -, -, -⟩
          exact absurd (List.head_eq_of_cons_eq heq) ht

/-- Claim C1, counterexample: on `a is b` the emitter produces the
`?.name` comparison `(a?.name === b?.name)` (and `!==` for `is not`), not the
`?._id` comparison the claim states. -/
theorem c1_is_emits_name_counterexample :
    visitExpression 0 (Expr.binary "is" (Expr.identifier "a") (Expr.identifier "b")) =
      Except.ok "(a?.name === b?.name)" ∧
    visitExpression 0 (Expr.binary "is not" (Expr.identifier "a") (Expr.identifier "b")) =
      Except.ok "(a?.name !== b?.name)" ∧
    visitExpression 0 (Expr.binary "is" (Expr.identifier "a") (Expr.identifier "b")) ≠
      Except.ok "(a?._id === b?._id)" := by
  refine ⟨rfl, rfl, ?_⟩
  decide

/-- Claim C1 as amended: for every Binary expression with operator `is`
(resp. `is not`) whose operands emit successfully, the emitter produces the
parenthesized comparison of the operands' `?.name` properties,
`(L?.name === R?.name)` (resp. `(L?.name !== R?.name)`). -/
theorem c1_is_operator_emission (ind : Nat) (l r : Expr) (sl sr : String)
    (hl : visitExpression ind l = .ok sl) (hr : visitExpression ind r = .ok sr) :
    visitExpression ind (Expr.binary "is" l r) =
      .ok ("(" ++ sl ++ "?.name === " ++ sr ++ "?.name)") ∧
    visitExpression ind (Expr.binary "is not" l r) =
      .ok ("(" ++ sl ++ "?.name !== " ++ sr ++ "?.name)") := by
  constructor
  · have e : visitExpression ind (Expr.binary "is" l r) =
        Except.bind (visitExpression ind l) (fun left =>
          Except.bind (visitExpression ind r) (fun right =>
            Except.ok ("(" ++ left ++ "?.name === " ++ right ++ "?.name)"))) := rfl
    rw [e, hl, hr]
    rfl
  · have e : visitExpression ind (Expr.binary "is not" l r) =
        Except.bind (visitExpression ind l) (fun left =>
          Except.bind (visitExpression ind r) (fun right =>
            Except.ok ("(" ++ left ++ "?.name !== " ++ right ++ "?.name)"))) := rfl
    rw [e, hl, hr]
    rfl

theorem c1_is_operator_emission_witness :
    visitExpression 0 (Expr.binary "is" (Expr.identifier "err") (Expr.identifier "notFound")) =
      Except.ok "(err?.name === notFound?.name)" := by
  have h := (c1_is_operator_emission 0 (Expr.identifier "err") (Expr.identifier "notFound")
    "err" "notFound" rfl rfl).1
  simpa using h

/-- Claim C2 (code bug): the generator's statement switch has no `ShellBlock`
case, so a program containing a shell block makes `generate` throw
`Unknown statement type: ShellBlock` instead of emitting a runtime shell
helper call; the expression form dies the same way in `visitExpression`. -/
theorem c2_shell_block_generation_fails :
    generate [Stmt.shellBlock ["pattern"] "find . -name \"$pattern\""] =
      Except.error "Unknown statement type: ShellBlock" ∧
    visitStatement 1 true (Stmt.shellBlock ["pattern"] "find . -name \"$pattern\"") =
      Except.error "Unknown statement type: ShellBlock" ∧
    visitExpression 1 (Expr.shellBlockExpr [] "ls -la") =
      Except.error "Unknown expression type: ShellBlock" := by
  refine ⟨?_, rfl, rfl⟩
  decide

/-- Claim C4: whenever the target of `=` or a compound assignment is an
identifier or access chain whose root identifier is `dec`-bound, the
assignment step of the parser fails, and its diagnostic spells out both the
full dotted/bracketed access path (`getFullPath target`) and the root
variable name. -/
theorem c4_dec_assignment_guard (decVars : List String) (op : String) (target : Expr)
    (r : String) (hop : op ∈ assignmentOps) (hroot : getRootIdentifier target = some r)
    (hne : r ≠ "") (hmem : decVars.contains r = true) :
    parseAssignmentStep decVars op target = Except.error
      ("Cannot reassign '" ++ getFullPath target ++ "': variable '" ++ r ++
        "' is deeply immutable (declared with dec)") := by
  have hc : assignmentOps.contains op = true := by
    simpa [List.contains] using hop
  unfold parseAssignmentStep checkDecImmutability
  rw [hroot]
  have hm2 : r ∈ decVars := by simpa [List.contains] using hmem
  simp [hc, hne, hmem, hop, hm2]

theorem c4_dec_assignment_guard_witness :
    parseAssignmentStep ["obj"] "="
      (Expr.member (Expr.member (Expr.identifier "obj") "foo") "bar") = Except.error
      "Cannot reassign 'obj.foo.bar': variable 'obj' is deeply immutable (declared with dec)" := by
  have h := c4_dec_assignment_guard ["obj"] "="
    (Expr.member (Expr.member (Expr.identifier "obj") "foo") "bar") "obj"
    (by decide) rfl (by decide) (by decide)
  simpa using h

/-- Claim C5: the parser's secret check on a `js` block fails exactly when
some listed input is secret-declared and the reassembled block text matches
the `console.(log|error|warn|info|debug|trace)( …name… )` pattern; with no
such input the check passes (and the block parses). -/
theorem c5_secret_console_taint (secretVars inputs : List String) (code : String) :
    (jsBlockSecretCheck secretVars inputs code).isSome = true ↔
      ∃ k, k ∈ inputs ∧ secretVars.contains k = true ∧ consoleSecretMatch code k = true := by
  unfold jsBlockSecretCheck
  cases h : (inputs.filter (fun i => secretVars.contains i)).find?
      (fun k => consoleSecretMatch code k) with
  | none =>
      simp only [Option.isSome_none]
      constructor
      · intro hfalse; exact absurd hfalse (by simp)
      · rintro ⟨k, hk, hsv, hm⟩
        have : k ∈ (inputs.filter (fun i => secretVars.contains i)) :=
          List.mem_filter.mpr ⟨hk, hsv⟩
        have := List.find?_eq_none.mp h k this
        simp [hm] at this
  | some k =>
      simp only [Option.isSome_some, true_iff]
      have hmem := List.mem_of_find?_eq_some h
      have hp := List.find?_some h
      obtain ⟨hk, hsv⟩ := List.mem_filter.mp hmem
      exact ⟨k, hk, hsv, by simpa using hp⟩

theorem mem_insertDec_self (s : List String) (n : String) : n ∈ insertDec s n := by
  unfold insertDec
  split
  · next h => simpa [List.contains] using h
  · exact List.mem_append_right _ (List.mem_singleton.mpr rfl)

theorem insertDec_mono {x : String} (s : List String) (n : String) (h : x ∈ s) :
    x ∈ insertDec s n := by
  unfold insertDec
  split
  · exact h
  · exact List.mem_append_left _ h

theorem foldl_insertDec_mono {x : String} :
    ∀ (keys : List String) (s : List String), x ∈ s → x ∈ keys.foldl insertDec s := by
  intro keys
  induction keys with
  | nil => intro s h; exact h
  | cons k ks ih => intro s h; exact ih _ (insertDec_mono s k h)

theorem foldl_insertDec_opt_mono {x : String} :
    ∀ (elems : List (Option String)) (s : List String), x ∈ s →
      x ∈ elems.foldl (fun acc e => match e with
        | some n => insertDec acc n
        | none => acc) s := by
  intro elems
  induction elems with
  | nil => intro s h; exact h
  | cons e es ih =>
      intro s h
      cases e with
      | some n => exact ih _ (insertDec_mono s n h)
      | none => exact ih _ h

theorem decStep_mono {x : String} (s : List String) (e : ParseEvent) (h : x ∈ s) :
    x ∈ decStep s e := by
  cases e with
  | decScalar n => exact insertDec_mono s n h
  | decObjPattern keys => exact foldl_insertDec_mono keys s h
  | decArrPattern elems => exact foldl_insertDec_opt_mono elems s h
  | enterFunctionBody _ => exact h
  | exitFunctionBody => exact h
  | assignTarget _ _ => exact h

theorem foldl_decStep_mono {x : String} :
    ∀ (events : List ParseEvent) (s : List String), x ∈ s →
      x ∈ events.foldl decStep s := by
  intro events
  induction events with
  | nil => intro s h; exact h
  | cons e es ih => intro s h; exact ih _ (decStep_mono s e h)

theorem decScalar_run_mem {n : String} :
    ∀ (pre : List ParseEvent) (s : List String), ParseEvent.decScalar n ∈ pre →
      n ∈ pre.foldl decStep s := by
  intro pre
  induction pre with
  | nil => intro s h; exact absurd h (List.not_mem_nil _)
  | cons e es ih =>
      intro s h
      rcases List.mem_cons.mp h with h | h
      · subst h
        exact foldl_decStep_mono es _ (mem_insertDec_self s n)
      · exact ih _ h

theorem hasImmutabilityError_append (l1 : List ParseEvent) :
    ∀ (s : List String) (l2 : List ParseEvent),
      hasImmutabilityError s (l1 ++ l2) =
        (hasImmutabilityError s l1 || hasImmutabilityError (l1.foldl decStep s) l2) := by
  induction l1 with
  | nil => intro s l2; simp [hasImmutabilityError]
  | cons e es ih =>
      intro s l2
      rw [List.cons_append]
      simp only [hasImmutabilityError]
      rw [ih]
      simp [List.foldl_cons, Bool.or_assoc]

/-- Claim C10: `decVariables` is one flat parse-wide set — every parser action
only ever adds to it (first conjunct), entering or leaving a function body
leaves it untouched (second conjunct) — so any assignment whose target's root
identifier matches a `dec` binding made anywhere earlier in the parse is
rejected, even across function boundaries where the name denotes a different
inner binding (third conjunct). -/
theorem c10_flat_dec_set :
    (∀ (s : List String) (e : ParseEvent) (x : String), x ∈ s → x ∈ decStep s e) ∧
    (∀ (s : List String) (params : List String),
      decStep s (ParseEvent.enterFunctionBody params) = s ∧
      decStep s ParseEvent.exitFunctionBody = s) ∧
    (∀ (pre post : List ParseEvent) (target : Expr) (op n : String),
      ParseEvent.decScalar n ∈ pre → getRootIdentifier target = some n → n ≠ "" →
      hasImmutabilityError [] (pre ++ ParseEvent.assignTarget target op :: post) = true) := by
  refine ⟨fun s e x h => decStep_mono s e h, fun s params => ⟨rfl, rfl⟩, ?_⟩
  intro pre post target op n hpre hroot hne
  rw [hasImmutabilityError_append]
  have hmem : n ∈ pre.foldl decStep [] := decScalar_run_mem pre [] hpre
  have hchk : (checkDecImmutability (pre.foldl decStep []) target).isSome = true := by
    unfold checkDecImmutability
    rw [hroot]
    have hc : (pre.foldl decStep []).contains n = true := by
      simpa [List.contains] using hmem
    simp [hne, hc, hmem]
  have : hasImmutabilityError (pre.foldl decStep [])
      (ParseEvent.assignTarget target op :: post) = true := by
    show ((checkDecImmutability (pre.foldl decStep []) target).isSome ||
      hasImmutabilityError _ post) = true
    rw [hchk]
    simp
  rw [this]
  simp

theorem c10_flat_dec_set_witness :
    hasImmutabilityError [] [ParseEvent.decScalar "x", ParseEvent.enterFunctionBody ["x"],
      ParseEvent.assignTarget (Expr.identifier "x") "="] = true := by
  have h := c10_flat_dec_set.2.2 [ParseEvent.decScalar "x", ParseEvent.enterFunctionBody ["x"]]
    [] (Expr.identifier "x") "=" "x" (by simp) rfl (by decide)
  simpa using h

theorem mem_insertKey_self (m : List String) (k : String) : k ∈ insertKey m k := by
  unfold insertKey
  split
  · next h => simpa [List.contains] using h
  · exact List.mem_append_right _ (List.mem_singleton.mpr rfl)

theorem insertKey_mono {x : String} (m : List String) (k : String) (h : x ∈ m) :
    x ∈ insertKey m k := by
  unfold insertKey
  split
  · exact h
  · exact List.mem_append_left _ h

theorem foldl_insertKey_mono {x : String} :
    ∀ (l : List String) (m : List String), x ∈ m → x ∈ l.foldl insertKey m := by
  intro l
  induction l with
  | nil => intro m h; exact h
  | cons k ks ih => intro m h; exact ih _ (insertKey_mono m k h)

theorem mem_foldl_insertKey_of_mem {x : String} :
    ∀ (l : List String) (m : List String), x ∈ l → x ∈ l.foldl insertKey m := by
  intro l
  induction l with
  | nil => intro m h; exact absurd h (List.not_mem_nil _)
  | cons k ks ih =>
      intro m h
      rcases List.mem_cons.mp h with h | h
      · subst h
        exact foldl_insertKey_mono ks _ (mem_insertKey_self m x)
      · exact ih _ h

theorem mem_tcExportDeclsList {fns : List String} {n : String} {s : Stmt} :
    ∀ (prog : List Stmt), s ∈ prog → n ∈ tcExportDecls fns s →
      n ∈ tcExportDeclsList fns prog := by
  intro prog
  induction prog with
  | nil => intro h; exact absurd h (List.not_mem_nil _)
  | cons a rest ih =>
      intro h hn
      rcases List.mem_cons.mp h with h | h
      · subst h
        exact List.mem_append_left _ hn
      · exact List.mem_append_right _ (ih h hn)

theorem tcExportDeclsList_nil_of_env {fns : List String} :
    ∀ (prog : List Stmt), (∀ s ∈ prog, isEnvDecl s = true) →
      tcExportDeclsList fns prog = [] := by
  intro prog
  induction prog with
  | nil => intro; rfl
  | cons a rest ih =>
      intro hall
      have ha := hall a (List.mem_cons_self a rest)
      have hrest := ih fun s hs => hall s (List.mem_cons_of_mem a hs)
      cases a
      case envDeclaration n req dv sec =>
        simp [tcExportDeclsList, tcExportDecls, hrest]
      all_goals simp [isEnvDecl] at ha

/-- Claim C6 as amended: the per-module export object gets one entry for every
`arg` declaration, every exposed scalar `dec`, and every exposed top-level
`fn`; `env` declarations contribute nothing (a program of only `env`
declarations exports nothing); and the object reaches the ExportRegistry
exactly when a module path was supplied and the object is nonempty. -/
theorem c6_module_exports :
    (∀ (prog : List Stmt) (n : String) (req : Bool) (dv : Option Expr) (sec : Bool),
      Stmt.argDeclaration n req dv sec ∈ prog → n ∈ moduleExportsOf prog) ∧
    (∀ (prog : List Stmt) (n : String) (init : Expr) (sec : Bool),
      Stmt.dec (DecLHS.scalar n) init sec true ∈ prog → n ∈ moduleExportsOf prog) ∧
    (∀ (prog : List Stmt) (n : String) (ps : List FnParam) (body : List Stmt) (a m : Bool),
      Stmt.functionDeclaration n ps body a m true ∈ prog → n ∈ moduleExportsOf prog) ∧
    (∀ (prog : List Stmt), (∀ s ∈ prog, isEnvDecl s = true) → moduleExportsOf prog = []) ∧
    (∀ (mp : Option String) (exps : List String),
      checkPublishes mp exps = true ↔ mp.isSome = true ∧ exps ≠ []) := by
  refine ⟨?_, ?_, ?_, ?_, ?_⟩
  · intro prog n req dv sec h
    exact mem_foldl_insertKey_of_mem _ _
      (mem_tcExportDeclsList prog h (by simp [tcExportDecls]))
  · intro prog n init sec h
    exact mem_foldl_insertKey_of_mem _ _
      (mem_tcExportDeclsList prog h (by simp [tcExportDecls]))
  · intro prog n ps body a m h
    have hfns : (topLevelFns prog).contains n = true := by
      have : n ∈ topLevelFns prog :=
        List.mem_filterMap.mpr ⟨Stmt.functionDeclaration n ps body a m true, h, rfl⟩
      simpa [List.contains] using this
    refine mem_foldl_insertKey_of_mem _ _ (mem_tcExportDeclsList prog h ?_)
    simp only [tcExportDecls, hfns, if_true]
    exact List.mem_append_left _ (List.mem_singleton.mpr rfl)
  · intro prog hall
    unfold moduleExportsOf
    rw [tcExportDeclsList_nil_of_env prog hall]
    rfl
  · intro mp exps
    cases mp <;> cases exps <;> simp [checkPublishes]

/-- Claim C6, counterexample: an `env` declaration contributes no entry to the
per-module export object — a program holding only `env API_KEY` exports the
empty object, `API_KEY` is absent, and nothing is published even with a
module path supplied. -/
theorem c6_env_export_counterexample :
    moduleExportsOf [Stmt.envDeclaration "API_KEY" true none false] = [] ∧
    "API_KEY" ∉ moduleExportsOf [Stmt.envDeclaration "API_KEY" true none false] ∧
    checkPublishes (some "app.config")
      (moduleExportsOf [Stmt.envDeclaration "API_KEY" true none false]) = false := by
  refine ⟨rfl, ?_, rfl⟩
  decide

theorem c6_module_exports_witness :
    "bar" ∈ moduleExportsOf [Stmt.argDeclaration "bar" false none false] :=
  c6_module_exports.1 [Stmt.argDeclaration "bar" false none false] "bar" false none false
    (List.mem_singleton.mpr rfl)

/-- Claim C7 as amended: every successfully emitted file is laid out as the
dependency import lines (one `import _dep_<alias> from './dotted/path.km';`
per DepStmt, then a blank line when any exist), THEN the deterministic
runtime preamble, THEN the `export default function(_opts = {}) {` factory
wrapper — the import section comes first, not the preamble. -/
theorem c7_emitted_layout (prog : List Stmt) (out : String)
    (h : generate prog = Except.ok out) :
    ∃ body, out = importsSectionOf prog ++ runtimeExtensionsText ++ factoryOpenLine ++ body := by
  unfold generate at h
  cases hb : generateFactoryBody prog with
  | error e => rw [hb] at h; simp [Except.map] at h
  | ok t =>
      rw [hb] at h
      simp only [Except.map] at h
      exact ⟨t, (Except.ok.injEq _ _).mp h.symm⟩

theorem c7_emitted_layout_witness :
    ∃ out body, generate ([] : List Stmt) = Except.ok out ∧
      out = importsSectionOf [] ++ runtimeExtensionsText ++ factoryOpenLine ++ body := by
  obtain ⟨body, hb⟩ := c7_emitted_layout [] _ rfl
  exact ⟨_, body, rfl, hb⟩

set_option maxRecDepth 4000 in
/-- Claim C7, counterexample: for a program with one DepStmt the emitted text
begins with the `import` line, so it is not the runtime preamble followed by
imports — the claimed order (preamble first, then imports) is wrong. -/
theorem c7_preamble_first_counterexample :
    ¬ ∃ s, generate [Stmt.depStatement "api" "myapp.api" ["myapp", "api"] none] =
        Except.ok (runtimeExtensionsText ++ s) := by
  rintro ⟨s, h⟩
  rw [generate] at h
  cases hb : generateFactoryBody [Stmt.depStatement "api" "myapp.api" ["myapp", "api"] none] with
  | error e => rw [hb] at h; simp [Except.map] at h
  | ok t =>
      rw [hb] at h
      simp only [Except.map] at h
      have heq := (Except.ok.injEq _ _).mp h
      have h1 : (importsSectionOf
          [Stmt.depStatement "api" "myapp.api" ["myapp", "api"] none]).data.head? =
          some 'i' := by decide
      have h2 : runtimeExtensionsText.data.head? = some '/' := by decide
      have hl : (importsSectionOf [Stmt.depStatement "api" "myapp.api" ["myapp", "api"] none] ++
          runtimeExtensionsText ++ factoryOpenLine ++ t).data.head? = some 'i' :=
        strHead_append _ _ _ (strHead_append _ _ _ (strHead_append _ _ _ h1))
      have hr : (runtimeExtensionsText ++ s).data.head? = some '/' :=
        strHead_append _ _ _ h2
      rw [heq, hr] at hl
      exact absurd hl (by decide)

theorem specEnumValues_isEmpty (ctr : Int) (abs : List (String × Option Int)) :
    (specEnumValues ctr abs).isEmpty = abs.isEmpty := by
  cases abs with
  | nil => rfl
  | cons p rest =>
      obtain ⟨nm, v⟩ := p
      cases v <;> rfl

theorem mapM_abstract_isEmpty :
    ∀ (ms : List EnumMember) (abs : List (String × Option Int)),
      ms.mapM abstractEnumMember = some abs → ms.isEmpty = abs.isEmpty := by
  intro ms abs h
  cases ms with
  | nil =>
      simp only [List.mapM_nil, pure, Option.some.injEq] at h
      rw [← h]
      rfl
  | cons m rest =>
      rw [List.mapM_cons] at h
      cases him : abstractEnumMember m <;> rw [him] at h
      · simp at h
      · cases hr : rest.mapM abstractEnumMember <;> rw [hr] at h
        · simp at h
        · simp at h
          subst h
          rfl

theorem enumMembers_spec (ind : Nat) :
    ∀ (ms : List EnumMember) (abs : List (String × Option Int)) (ctr : Int),
      ms.mapM abstractEnumMember = some abs →
      enumMembersStr ind ctr ms = Except.ok (renderEnumBody ind (specEnumValues ctr abs)) := by
  intro ms
  induction ms with
  | nil =>
      intro abs ctr h
      simp only [List.mapM_nil, pure, Option.some.injEq] at h
      rw [← h]
      rfl
  | cons m rest ih =>
      intro abs ctr h
      rw [List.mapM_cons] at h
      cases him : abstractEnumMember m <;> rw [him] at h
      · simp at h
      · next a =>
        cases hrest : rest.mapM abstractEnumMember <;> rw [hrest] at h
        · simp at h
        · next as =>
          simp at h
          subst h
          have hcomma : rest.isEmpty = (specEnumValues (ctr + 1) as).isEmpty := by
            rw [specEnumValues_isEmpty, mapM_abstract_isEmpty rest as hrest]
          obtain ⟨nm, v⟩ := m
          cases v with
          | none =>
              simp only [abstractEnumMember, Option.some.injEq] at him
              subst him
              have estep : enumMembersStr ind ctr (⟨nm, none⟩ :: rest) =
                  Except.bind (enumMembersStr ind (ctr + 1) rest) (fun restS =>
                    Except.ok (getIndent ind ++ nm ++ ": " ++ toString ctr ++
                      (if rest.isEmpty then "" else ",") ++ "\n" ++ restS)) := rfl
              rw [estep, ih as (ctr + 1) hrest]
              show Except.ok _ = Except.ok _
              rw [hcomma]
              rfl
          | some e =>
              cases e
              case literal val raw isNum isStr =>
                cases val
                case num k =>
                  cases isNum with
                  | false => simp [abstractEnumMember] at him
                  | true =>
                      simp only [abstractEnumMember] at him
                      by_cases hraw : raw = toString k
                      · rw [if_pos hraw] at him
                        have ha : a = (nm, some k) := by
                          injection him with h2
                          exact h2.symm
                        subst ha
                        have hcomma2 : rest.isEmpty = (specEnumValues (k + 1) as).isEmpty := by
                          rw [specEnumValues_isEmpty, mapM_abstract_isEmpty rest as hrest]
                        have estep : enumMembersStr ind ctr
                            (⟨nm, some (Expr.literal (JSVal.num k) raw true isStr)⟩ :: rest) =
                            Except.bind (enumMembersStr ind (k + 1) rest) (fun restS =>
                              Except.ok (getIndent ind ++ nm ++ ": " ++ raw ++
                                (if rest.isEmpty then "" else ",") ++ "\n" ++ restS)) := rfl
                        rw [estep, ih as (k + 1) hrest]
                        show Except.ok _ = Except.ok _
                        rw [hcomma2, hraw]
                        rfl
                      · rw [if_neg hraw] at him
                        exact absurd him (by simp)
                all_goals simp [abstractEnumMember] at him
              all_goals simp [abstractEnumMember] at him

/-- Claim C8 as amended: the emitter assigns enum member values from an
auto-incrementing counter starting at 0, and an explicit member value resets
the counter only when it is a numeric literal (the counter becomes that value
plus one); for enums whose explicit values are all decimal numeric literals
the emitted object realizes exactly the claimed counter semantics
(`specEnumValues`). -/
theorem c8_enum_counter (ind : Nat) (top : Bool) (name : String) (ms : List EnumMember)
    (abs : List (String × Option Int)) (h : ms.mapM abstractEnumMember = some abs) :
    visitStatement ind top (Stmt.enumDeclaration name ms) =
      Except.ok (renderEnum ind name (specEnumValues 0 abs)) := by
  have estep : visitStatement ind top (Stmt.enumDeclaration name ms) =
      Except.bind (enumMembersStr (ind + 1) 0 ms) (fun msS =>
        Except.ok (getIndent ind ++ "const " ++ name ++ " = Object.freeze(\x7b\n" ++ msS ++
          getIndent ind ++ "\x7d);\n" ++ getIndent ind ++ "\n")) := rfl
  rw [estep, enumMembers_spec (ind + 1) ms abs 0 h]
  rfl

theorem c8_enum_counter_witness :
    visitStatement 0 false (Stmt.enumDeclaration "C" [⟨"A", none⟩,
      ⟨"B", some (Expr.literal (JSVal.num 10) "10" true false)⟩, ⟨"C", none⟩]) =
      Except.ok "const C = Object.freeze(\x7b\n  A: 0,\n  B: 10,\n  C: 11\n\x7d);\n\n" := by
  have h := c8_enum_counter 0 false "C" [⟨"A", none⟩,
    ⟨"B", some (Expr.literal (JSVal.num 10) "10" true false)⟩, ⟨"C", none⟩]
    [("A", none), ("B", some 10), ("C", none)] (by decide)
  rw [h]
  decide

/-- Claim C8, counterexample: an explicit member value that is not a numeric
literal does not reset the counter.  In `enum E { A = 2 * 5, B }` the claim
makes `B` continue from the explicit value 10 (giving `B: 11`), but the
emitter leaves the counter at 0 and emits `B: 0`. -/
theorem c8_enum_counter_counterexample :
    visitStatement 0 false (Stmt.enumDeclaration "E"
      [⟨"A", some (Expr.binary "*" (Expr.literal (JSVal.num 2) "2" true false)
          (Expr.literal (JSVal.num 5) "5" true false))⟩, ⟨"B", none⟩]) =
      Except.ok "const E = Object.freeze(\x7b\n  A: (2 * 5),\n  B: 0\n\x7d);\n\n" ∧
    visitStatement 0 false (Stmt.enumDeclaration "E"
      [⟨"A", some (Expr.binary "*" (Expr.literal (JSVal.num 2) "2" true false)
          (Expr.literal (JSVal.num 5) "5" true false))⟩, ⟨"B", none⟩]) ≠
      Except.ok "const E = Object.freeze(\x7b\n  A: (2 * 5),\n  B: 11\n\x7d);\n\n" := by
  refine ⟨rfl, ?_⟩
  decide

/-- Claim C9: pipe and flow compose left-to-right.  `x ~> f ~> g` parses to
the left-nested chain `parsePipeChain x [f, g]` and emits `g(f(x))`;
`name >> f g` parses to a flow node whose emission binds `name` to the
variadic composition `(..._args) => g(f(..._args))`. -/
theorem c9_pipe_flow_composition :
    (∀ (ind : Nat) (x f g : Expr) (sx sf sg : String),
      visitExpression ind x = Except.ok sx → visitExpression ind f = Except.ok sf →
      visitExpression ind g = Except.ok sg →
      visitExpression ind (parsePipeChain x [f, g]) =
        Except.ok (sg ++ "(" ++ (sf ++ "(" ++ sx ++ ")") ++ ")")) ∧
    (∀ (ind : Nat) (name f g : String),
      visitExpression ind (Expr.flowExpr name [f, g]) =
        Except.ok ("const " ++ name ++ " = (..._args) => " ++
          (g ++ "(" ++ (f ++ "(..._args)") ++ ")"))) := by
  constructor
  · intro ind x f g sx sf sg hx hf hg
    have e1 : visitExpression ind (parsePipeChain x [f, g]) =
        Except.bind (Except.bind (visitExpression ind x) (fun sl =>
          Except.bind (visitExpression ind f) (fun sr =>
            Except.ok (sr ++ "(" ++ sl ++ ")")))) (fun sl =>
          Except.bind (visitExpression ind g) (fun sr =>
            Except.ok (sr ++ "(" ++ sl ++ ")"))) := rfl
    rw [e1, hx, hf]
    show Except.bind (Except.ok _) _ = _
    rw [show ∀ (a : String) (fn : String → Except String String),
      Except.bind (Except.ok a) fn = fn a from fun a fn => rfl]
    rw [hg]
    rfl
  · intro ind name f g
    rfl

theorem c9_pipe_flow_composition_witness :
    visitExpression 0 (parsePipeChain (Expr.literal (JSVal.num 5) "5" true false)
        [Expr.identifier "double", Expr.identifier "addOne"]) =
      Except.ok "addOne(double(5))" ∧
    visitExpression 0 (Expr.flowExpr "transform" ["addOne", "double"]) =
      Except.ok "const transform = (..._args) => double(addOne(..._args))" := by
  constructor
  · have h := c9_pipe_flow_composition.1 0 (Expr.literal (JSVal.num 5) "5" true false)
      (Expr.identifier "double") (Expr.identifier "addOne") "5" "double" "addOne" rfl rfl rfl
    simpa using h
  · have h := c9_pipe_flow_composition.2 0 "transform" "addOne" "double"
    simpa using h
